import Mathlib

/-!
Shallow embedding of `src/moshes_insanity.py` (Moshe's Insanity).

A cube is a Python tuple of 6 one-character color strings; we model it as a
`List Color` of length 6.  A corner is a 3-character string obtained by
concatenating three colors; we model it as a `List Color` of length 3.
Python `list.remove` removes the first occurrence, matching `List.erase`.
Python dictionaries (insertion-ordered, overwriting on key collision) are
modelled as association lists with an insert-or-overwrite operation.
Python's `any` on a collection tests element *truthiness*: a string is truthy
iff nonempty, an int is truthy iff nonzero; the embedding reproduces this
faithfully, which is what exposes the Oracle Selector's behaviour on cube
index 0.
-/

set_option maxRecDepth 100000
set_option maxHeartbeats 2000000

namespace MoshesInsanity

/-- The 6 cube colors. -/
inductive Color : Type
  | B | G | P | R | W | Y
  deriving DecidableEq, Repr, Fintype

/-- Source constant `CUBE_COLORS = ['B', 'G', 'P', 'R', 'W', 'Y']`
(alphabetical order, as in the source). -/
def CUBE_COLORS : List Color := [.B, .G, .P, .R, .W, .Y]

/-- A cube: a tuple of 6 colors, slots 0 = bottom, 1 = top, 2 = front,
3..5 = remaining sides counter-clockwise from the front. -/
abbrev Cube := List Color

/-- A corner name: a concatenation of 3 colors. -/
abbrev Corner := List Color

/-- Embeds `itertools.permutations`, which on a list of distinct elements
yields all permutations in the lexicographic order induced by the input order
(the input `CUBE_COLORS` is sorted).  `permsAux fuel l`, called with
`fuel = l.length`, reproduces this: for each element in input order, prepend
it to each permutation of the rest. -/
def permsAux : Nat → List Color → List (List Color)
  | 0, _ => [[]]
  | n + 1, l => l.flatMap fun x => (permsAux n (l.erase x)).map (x :: ·)

/-- All permutations of the 6 colors, in the order `itertools.permutations`
produces them. -/
def permutations6 : List (List Color) := permsAux CUBE_COLORS.length CUBE_COLORS

/-- Embeds `spin_cube_clockwise(cube)`: `cube[:2] + cube[3:] + (cube[2],)`.
(The final `(cube[2],)` is written as the slice `cube[2:3]`, identical for the
length-6 cubes the program uses.) -/
def spin_cube_clockwise (cube : Cube) : Cube :=
  cube.take 2 ++ cube.drop 3 ++ (cube.drop 2).take 1

/-- Python `cubes.remove(x)`: removes the first occurrence, raising
`ValueError` when absent.  The fallible call is modelled with `Option`. -/
def list_remove (cubes : List Cube) (x : Cube) : Option (List Cube) :=
  if x ∈ cubes then some (cubes.erase x) else none

/-- Embeds `safe_remove_cube_from_list(cubes, cube_to_remove)`: try `remove`;
on `ValueError` return `False`, else `True`.  The Python function mutates the
list in place; we return the new list alongside the flag. -/
def safe_remove_cube_from_list (cubes : List Cube) (cube_to_remove : Cube) :
    List Cube × Bool :=
  match list_remove cubes cube_to_remove with
  | some cubes' => (cubes', true)
  | none => (cubes, false)

/-- One iteration of the deduplication loop in `generate_cubes`:
`c = cubes[i]`, spin it three times, and safe-remove the three spins. -/
def generate_cubes_step (cubes : List Cube) (i : Nat) : List Cube :=
  let c := cubes.getD i []
  let c1 := spin_cube_clockwise c
  let c2 := spin_cube_clockwise c1
  let c3 := spin_cube_clockwise c2
  let cubes := (safe_remove_cube_from_list cubes c1).1
  let cubes := (safe_remove_cube_from_list cubes c2).1
  let cubes := (safe_remove_cube_from_list cubes c3).1
  cubes

/-- Embeds `generate_cubes()`: the 120 permutations with `c[0] == "Y"`, then
for `i in range(0, 30)` remove the three nontrivial spins of `cubes[i]`. -/
def generate_cubes : List Cube :=
  let cubes := permutations6.filter fun c => c.head? == some Color.Y
  (List.range 30).foldl generate_cubes_step cubes

/-- Embeds `get_corners(cube)`: the 8 corner strings, 4 top corners then 4
bottom corners, sides paired consecutively and wrapping (5 with 2).  A Python
tuple shorter than 6 would raise `IndexError`; that case is outside the
program's domain and mapped to `[]`. -/
def get_corners : Cube → List Corner
  | [b, t, c2, c3, c4, c5] =>
      [ [t, c2, c3], [t, c3, c4], [t, c4, c5], [t, c5, c2],
        [b, c2, c3], [b, c3, c4], [b, c4, c5], [b, c5, c2] ]
  | _ => []

/-- Embeds `spin_corner(corner)`: `corner[1:] + corner[0]` (rotate left by
one position). -/
def spin_corner (corner : Corner) : Corner :=
  corner.drop 1 ++ corner.take 1

/-- Embeds `get_all_corner_names(corner)`: the set `{corner, spin(corner),
spin(spin(corner))}`; set deduplication is irrelevant for the membership
tests below. -/
def get_all_corner_names (corner : Corner) : List Corner :=
  [corner, spin_corner corner, spin_corner (spin_corner corner)]

/-- Embeds `is_corner_matching(c1, c2)`:
`any(get_all_corner_names(c1).intersection(get_all_corner_names(c2)))`, which
is true iff the two name sets share a *truthy* (nonempty) string. -/
def is_corner_matching (corner1 corner2 : Corner) : Bool :=
  (get_all_corner_names corner1).any fun n =>
    (get_all_corner_names corner2).contains n && !n.isEmpty

/-- Embeds `has_matching_corners(cube1, cube2)`: some corner of `cube1`
matches some corner of `cube2` (Python wraps the corner lists in `set`, which
only deduplicates and cannot change this existential). -/
def has_matching_corners (cube1 cube2 : Cube) : Bool :=
  (get_corners cube1).any fun corner1 =>
    (get_corners cube2).any fun corner2 => is_corner_matching corner1 corner2

/-- Embeds `has_a_matching_corner(corner1, cube2)`: `corner1` matches some
corner of `cube2`. -/
def has_a_matching_corner (corner1 : Corner) (cube2 : Cube) : Bool :=
  (get_corners cube2).any fun corner2 => is_corner_matching corner1 corner2

/-- Embeds `generate_exclusions(possible_cubes)`: dict from each index `i` to
`{j | not has_matching_corners(cubes[i], cubes[j])}`; the dict with keys
`0..n-1` in order is modelled as a list of rows. -/
def generate_exclusions (possible_cubes : List Cube) : List (List Nat) :=
  possible_cubes.enum.map fun p =>
    ((possible_cubes.enum.filter fun q => !has_matching_corners p.2 q.2).map Prod.fst)

/-- Embeds `get_oracle_cubes(possible_cubes, exclusions, game_cube_numbers)`:
append `c` when `not any(g.intersection(exclusions[c]))`.  Python `any` over
a set of ints is true iff the set holds a *nonzero* element, so the test kept
here is: no element of the intersection is nonzero (index 0 is falsy!). -/
def get_oracle_cubes (possible_cubes : List Cube) (exclusions : List (List Nat))
    (game_cube_numbers : List Nat) : List Nat :=
  (List.range possible_cubes.length).filter fun c =>
    !(game_cube_numbers.any fun x => (exclusions.getD c []).contains x && x != 0)

/-- Python dict assignment `d[k] = v`: overwrite in place when the key
exists, else append. -/
def dictInsert {α β : Type} [DecidableEq α] (d : List (α × β)) (k : α) (v : β) :
    List (α × β) :=
  if d.any fun p => p.1 = k then
    d.map fun p => if p.1 = k then (k, v) else p
  else d ++ [(k, v)]

/-- The inner dict of `generate_chessboard`:
`{corner : has_a_matching_corner(corner, c) for corner in oracle_corners}`. -/
def chessboard_row (oracle_corners : List Corner) (c : Cube) :
    List (Corner × Bool) :=
  oracle_corners.foldl (fun row corner =>
    dictInsert row corner (has_a_matching_corner corner c)) []

/-- Embeds `generate_chessboard(cubes, oracle_cube)`: dict keyed by the
joined cube string (`''.join` is injective on the length-6 color tuples, so
the cube value itself serves as the key). -/
def generate_chessboard (cubes : List Cube) (oracle_cube : Cube) :
    List (Cube × List (Corner × Bool)) :=
  let oracle_corners := get_corners oracle_cube
  cubes.foldl (fun board c =>
    dictInsert board c (chessboard_row oracle_corners c)) []

/-- The value of `generate_cubes`, as a literal (proved equal below); having
the literal keeps later kernel computations on the cube set cheap. -/
def cubeList30 : List Cube :=
[ [.Y, .B, .G, .P, .R, .W], [.Y, .B, .G, .P, .W, .R], [.Y, .B, .G, .R, .P, .W],
  [.Y, .B, .G, .R, .W, .P], [.Y, .B, .G, .W, .P, .R], [.Y, .B, .G, .W, .R, .P],
  [.Y, .G, .B, .P, .R, .W], [.Y, .G, .B, .P, .W, .R], [.Y, .G, .B, .R, .P, .W],
  [.Y, .G, .B, .R, .W, .P], [.Y, .G, .B, .W, .P, .R], [.Y, .G, .B, .W, .R, .P],
  [.Y, .P, .B, .G, .R, .W], [.Y, .P, .B, .G, .W, .R], [.Y, .P, .B, .R, .G, .W],
  [.Y, .P, .B, .R, .W, .G], [.Y, .P, .B, .W, .G, .R], [.Y, .P, .B, .W, .R, .G],
  [.Y, .R, .B, .G, .P, .W], [.Y, .R, .B, .G, .W, .P], [.Y, .R, .B, .P, .G, .W],
  [.Y, .R, .B, .P, .W, .G], [.Y, .R, .B, .W, .G, .P], [.Y, .R, .B, .W, .P, .G],
  [.Y, .W, .B, .G, .P, .R], [.Y, .W, .B, .G, .R, .P], [.Y, .W, .B, .P, .G, .R],
  [.Y, .W, .B, .P, .R, .G], [.Y, .W, .B, .R, .G, .P], [.Y, .W, .B, .R, .P, .G] ]

/-- The value of `generate_exclusions generate_cubes`, as a literal (proved
equal below). -/
def excTable30 : List (List Nat) :=
[ [5, 7, 8, 14, 17, 19, 23, 25, 26], [3, 6, 10, 15, 16, 19, 20, 25, 29],
  [4, 6, 9, 13, 17, 20, 23, 24, 28], [1, 8, 11, 13, 14, 21, 22, 24, 27],
  [2, 7, 11, 12, 15, 18, 22, 26, 29], [0, 9, 10, 12, 16, 18, 21, 27, 28],
  [1, 2, 11, 13, 16, 19, 23, 28, 29], [0, 4, 9, 12, 14, 22, 23, 25, 29],
  [0, 3, 10, 13, 17, 19, 22, 26, 27], [2, 5, 7, 16, 17, 18, 20, 24, 27],
  [1, 5, 8, 12, 15, 20, 21, 25, 28], [3, 4, 6, 14, 15, 18, 21, 24, 26],
  [4, 5, 7, 10, 17, 21, 22, 28, 29], [2, 3, 6, 8, 15, 22, 23, 27, 28],
  [0, 3, 7, 11, 16, 21, 23, 24, 25], [1, 4, 10, 11, 13, 18, 20, 25, 26],
  [1, 5, 6, 9, 14, 18, 19, 27, 29], [0, 2, 8, 9, 12, 19, 20, 24, 26],
  [4, 5, 9, 11, 15, 16, 23, 26, 27], [0, 1, 6, 8, 16, 17, 21, 26, 29],
  [1, 2, 9, 10, 15, 17, 22, 24, 25], [3, 5, 10, 11, 12, 14, 19, 24, 28],
  [3, 4, 7, 8, 12, 13, 20, 27, 29], [0, 2, 6, 7, 13, 14, 18, 25, 28],
  [2, 3, 9, 11, 14, 17, 20, 21, 29], [0, 1, 7, 10, 14, 15, 20, 23, 27],
  [0, 4, 8, 11, 15, 17, 18, 19, 28], [3, 5, 8, 9, 13, 16, 18, 22, 25],
  [2, 5, 6, 10, 12, 13, 21, 23, 26], [1, 4, 6, 7, 12, 16, 19, 22, 24] ]

/-- The generator evaluates to the literal cube list. -/
theorem generate_cubes_eq : generate_cubes = cubeList30 := by decide

/-- The exclusion table of the generated cube set evaluates to the literal
table. -/
theorem generate_exclusions_generate_cubes_eq :
    generate_exclusions generate_cubes = excTable30 := by
  rw [generate_cubes_eq]
  decide

/-- A length-6 list decomposes into its 6 elements. -/
theorem exists_six (l : List Color) (h : l.length = 6) :
    ∃ a b c d e f, l = [a, b, c, d, e, f] := by
  match l, h with
  | [a, b, c, d, e, f], _ => exact ⟨a, b, c, d, e, f, rfl⟩

/-- A length-3 list decomposes into its 3 elements. -/
theorem exists_three (l : List Color) (h : l.length = 3) :
    ∃ a b c, l = [a, b, c] := by
  match l, h with
  | [a, b, c], _ => exact ⟨a, b, c, rfl⟩

/-- Corner matching on triples is exactly cyclic-rotation equality: the name
sets of two triples overlap iff the second triple is a left rotation of the
first by 0, 1 or 2 positions. -/
theorem corner_match_iff_cyclic (a b c d e f : Color) :
    is_corner_matching [a, b, c] [d, e, f] = true ↔
      ∃ k, k < 3 ∧ ([a, b, c] : Corner).rotate k = [d, e, f] := by
  have hr0 : ([a, b, c] : Corner).rotate 0 = [a, b, c] := rfl
  have hr1 : ([a, b, c] : Corner).rotate 1 = [b, c, a] := rfl
  have hr2 : ([a, b, c] : Corner).rotate 2 = [c, a, b] := rfl
  constructor
  · intro h
    simp [is_corner_matching, get_all_corner_names, spin_corner] at h
    rcases h with (⟨h1, h2, h3⟩ | ⟨h1, h2, h3⟩ | ⟨h1, h2, h3⟩) |
      (⟨h1, h2, h3⟩ | ⟨h1, h2, h3⟩ | ⟨h1, h2, h3⟩) |
      ⟨h1, h2, h3⟩ | ⟨h1, h2, h3⟩ | ⟨h1, h2, h3⟩
    · exact ⟨0, by omega, by rw [hr0, h1, h2, h3]⟩
    · exact ⟨2, by omega, by rw [hr2, h1, h2, h3]⟩
    · exact ⟨1, by omega, by rw [hr1, h1, h2, h3]⟩
    · exact ⟨1, by omega, by rw [hr1, h1, h2, h3]⟩
    · exact ⟨0, by omega, by rw [hr0, h1, h2, h3]⟩
    · exact ⟨2, by omega, by rw [hr2, h1, h2, h3]⟩
    · exact ⟨2, by omega, by rw [hr2, h1, h2, h3]⟩
    · exact ⟨1, by omega, by rw [hr1, h1, h2, h3]⟩
    · exact ⟨0, by omega, by rw [hr0, h1, h2, h3]⟩
  · rintro ⟨k, hk, hrot⟩
    interval_cases k
    · rw [hr0] at hrot
      simp only [List.cons.injEq, and_true] at hrot
      obtain ⟨rfl, rfl, rfl⟩ := hrot
      simp [is_corner_matching, get_all_corner_names, spin_corner]
    · rw [hr1] at hrot
      simp only [List.cons.injEq, and_true] at hrot
      obtain ⟨rfl, rfl, rfl⟩ := hrot
      simp [is_corner_matching, get_all_corner_names, spin_corner]
    · rw [hr2] at hrot
      simp only [List.cons.injEq, and_true] at hrot
      obtain ⟨rfl, rfl, rfl⟩ := hrot
      simp [is_corner_matching, get_all_corner_names, spin_corner]

/-- The cyclic-rotation characterization, for any two length-3 corners. -/
theorem is_corner_matching_iff_rotate (c1 c2 : Corner) (h1 : c1.length = 3)
    (h2 : c2.length = 3) :
    is_corner_matching c1 c2 = true ↔ ∃ k, k < 3 ∧ c1.rotate k = c2 := by
  obtain ⟨a, b, c, rfl⟩ := exists_three c1 h1
  obtain ⟨d, e, f, rfl⟩ := exists_three c2 h2
  exact corner_match_iff_cyclic a b c d e f

/-- Inserting a fresh key into a dict appends the binding. -/
theorem dictInsert_eq_append {α β : Type} [DecidableEq α] (d : List (α × β)) (k : α)
    (v : β) (h : ∀ p ∈ d, p.1 ≠ k) : dictInsert d k v = d ++ [(k, v)] := by
  unfold dictInsert
  rw [if_neg]
  simp only [List.any_eq_true, decide_eq_true_eq, not_exists]
  intro p
  rw [not_and]
  exact h p

/-- Folding dict insertion over pairwise-distinct fresh keys builds the plain
association list. -/
theorem foldl_dictInsert_eq_map {α β : Type} [DecidableEq α] (f : α → β)
    (l : List α) : ∀ (acc : List (α × β)), l.Nodup →
      (∀ x ∈ l, ∀ p ∈ acc, p.1 ≠ x) →
      l.foldl (fun d x => dictInsert d x (f x)) acc = acc ++ l.map fun x => (x, f x) := by
  induction l with
  | nil => intro acc _ _; simp
  | cons x xs ih =>
    intro acc hnd hdisj
    simp only [List.foldl_cons, List.map_cons]
    rw [dictInsert_eq_append acc x (f x)
      (fun p hp => hdisj x (List.mem_cons_self x xs) p hp)]
    rw [ih (acc ++ [(x, f x)]) (List.Nodup.of_cons hnd) ?_]
    · simp
    · intro y hy p hp
      rcases List.mem_append.mp hp with hp | hp
      · exact hdisj y (List.mem_cons_of_mem x hy) p hp
      · have hx : p = (x, f x) := by simpa using hp
        subst hx
        intro hxy
        have hxy' : x = y := hxy
        exact (List.nodup_cons.mp hnd).1 (show x ∈ xs from hxy' ▸ hy)

/-- With duplicate-free oracle corners, the inner chessboard dict is a plain
association list over the corners in extraction order. -/
theorem chessboard_row_eq_map (ocs : List Corner) (c : Cube) (h : ocs.Nodup) :
    chessboard_row ocs c = ocs.map fun corner => (corner, has_a_matching_corner corner c) := by
  unfold chessboard_row
  simpa using foldl_dictInsert_eq_map (fun corner => has_a_matching_corner corner c) ocs [] h (by simp)

/-- With pairwise-distinct game cubes, the chessboard dict is a plain
association list over the cubes in selection order. -/
theorem generate_chessboard_eq_map (cubes : List Cube) (oracle : Cube) (h : cubes.Nodup) :
    generate_chessboard cubes oracle =
      cubes.map fun c => (c, chessboard_row (get_corners oracle) c) := by
  unfold generate_chessboard
  simpa using foldl_dictInsert_eq_map (fun c => chessboard_row (get_corners oracle) c) cubes [] h (by simp)

/-- Every generated cube has 8 pairwise-distinct corners, each of length 3. -/
theorem generated_cube_facts : ∀ c ∈ generate_cubes,
    (get_corners c).Nodup ∧ (get_corners c).length = 8 ∧
    ∀ x ∈ get_corners c, x.length = 3 := by
  rw [generate_cubes_eq]
  decide

/-- C1: the claim states that a cube `O` is returned by `get_oracle_cubes`
iff `Exclusion(O) ∩ G = ∅`.  Evaluating the code on its own 30-cube set and
exclusion table with the game selection `G = {0, 1, 2, 3, 4, 5, 6, 7}` shows
the divergence: cube 5 is returned (the result is `[5]`) even though
`0 ∈ Exclusion(5) ∩ G`, because Python's `any` treats the intersection `{0}`
as if it were empty (the int 0 is falsy).  Under the claimed semantics the
result would be `[]`. -/
theorem get_oracle_cubes_returns_cube_with_nonempty_overlap :
    get_oracle_cubes generate_cubes (generate_exclusions generate_cubes)
      [0, 1, 2, 3, 4, 5, 6, 7] = [5] ∧
    0 ∈ (generate_exclusions generate_cubes).getD 5 [] := by
  rw [generate_exclusions_generate_cubes_eq, generate_cubes_eq]
  decide

/-- C2: `generate_cubes` returns exactly 30 cubes and no two distinct cubes
in the list are related by 0 to 3 clockwise spins. -/
theorem generate_cubes_thirty_rotation_distinct :
    generate_cubes.length = 30 ∧
    ∀ A ∈ generate_cubes, ∀ B ∈ generate_cubes, A ≠ B →
      ∀ k, k < 4 → spin_cube_clockwise^[k] A ≠ B := by
  rw [generate_cubes_eq]
  decide

/-- Witness for C2 at the first two generated cubes and k = 2. -/
theorem generate_cubes_thirty_rotation_distinct_witness :
    spin_cube_clockwise^[2] [Color.Y, Color.B, Color.G, Color.P, Color.R, Color.W] ≠
      [Color.Y, Color.B, Color.G, Color.P, Color.W, Color.R] :=
  generate_cubes_thirty_rotation_distinct.2
    [Color.Y, Color.B, Color.G, Color.P, Color.R, Color.W]
    (by rw [generate_cubes_eq]; decide)
    [Color.Y, Color.B, Color.G, Color.P, Color.W, Color.R]
    (by rw [generate_cubes_eq]; decide)
    (by decide) 2 (by decide)

/-- C3: two corner triples match iff one is a cyclic rotation of the other
(shift by 0, 1 or 2); in particular YRP matches RPY and PYR but not the
reversed triple YPR. -/
theorem is_corner_matching_iff_cyclic_rotation :
    (∀ a b c d e f : Color,
      is_corner_matching [a, b, c] [d, e, f] = true ↔
        ∃ k, k < 3 ∧ ([a, b, c] : Corner).rotate k = [d, e, f]) ∧
    is_corner_matching [Color.Y, Color.R, Color.P] [Color.R, Color.P, Color.Y] = true ∧
    is_corner_matching [Color.Y, Color.R, Color.P] [Color.P, Color.Y, Color.R] = true ∧
    is_corner_matching [Color.Y, Color.R, Color.P] [Color.Y, Color.P, Color.R] = false :=
  ⟨corner_match_iff_cyclic, by decide, by decide, by decide⟩

/-- Witness for C3 at the concrete pair YRP, RPY. -/
theorem is_corner_matching_iff_cyclic_rotation_witness :
    is_corner_matching [Color.Y, Color.R, Color.P] [Color.R, Color.P, Color.Y] = true ↔
      ∃ k, k < 3 ∧ ([Color.Y, Color.R, Color.P] : Corner).rotate k =
        [Color.R, Color.P, Color.Y] :=
  is_corner_matching_iff_cyclic_rotation.1 Color.Y Color.R Color.P Color.R Color.P Color.Y

/-- C4: in the exclusion table of the full 30-cube set, membership is
symmetric (`i ∈ Exclusion(j)` iff `j ∈ Exclusion(i)`) and irreflexive
(`i ∉ Exclusion(i)`). -/
theorem generate_exclusions_symmetric_and_irreflexive :
    ∀ i, i < 30 → ∀ j, j < 30 →
      (i ∈ (generate_exclusions generate_cubes).getD j [] ↔
        j ∈ (generate_exclusions generate_cubes).getD i []) ∧
      i ∉ (generate_exclusions generate_cubes).getD i [] := by
  rw [generate_exclusions_generate_cubes_eq]
  decide

/-- Witness for C4 at indices 0 and 5. -/
theorem generate_exclusions_symmetric_and_irreflexive_witness :
    (0 ∈ (generate_exclusions generate_cubes).getD 5 [] ↔
      5 ∈ (generate_exclusions generate_cubes).getD 0 []) ∧
    0 ∉ (generate_exclusions generate_cubes).getD 0 [] :=
  generate_exclusions_symmetric_and_irreflexive 0 (by decide) 5 (by decide)

/-- C5: for an oracle cube and 8 pairwise-distinct game cubes drawn from the
generated 30-cube set, the chessboard has 8 rows, each with 8 columns, and
cell (i, j) is true iff some corner of game cube i is a cyclic rotation
(shift by 0, 1 or 2) of oracle corner j. -/
theorem generate_chessboard_shape_and_cells
    (cubes : List Cube) (oracle : Cube)
    (horacle : oracle ∈ generate_cubes)
    (hsub : ∀ c ∈ cubes, c ∈ generate_cubes)
    (hnd : cubes.Nodup) (hlen : cubes.length = 8) :
    (generate_chessboard cubes oracle).length = 8 ∧
    (∀ row ∈ generate_chessboard cubes oracle, row.2.length = 8) ∧
    (∀ i, i < 8 → ∀ j, j < 8 →
      ((((generate_chessboard cubes oracle).getD i ([], [])).2.getD j ([], false)).2 = true ↔
        ∃ corner ∈ get_corners (cubes.getD i []),
          ∃ k, k < 3 ∧ ((get_corners oracle).getD j []).rotate k = corner)) := by
  obtain ⟨hond, holen, ho3⟩ := generated_cube_facts oracle horacle
  have hboard := generate_chessboard_eq_map cubes oracle hnd
  refine ⟨by rw [hboard, List.length_map, hlen], ?_, ?_⟩
  · intro row hrow
    rw [hboard] at hrow
    obtain ⟨c, hc, rfl⟩ := List.mem_map.mp hrow
    show (chessboard_row (get_corners oracle) c).length = 8
    rw [chessboard_row_eq_map _ _ hond, List.length_map, holen]
  · intro i hi j hj
    have hi' : i < cubes.length := hlen ▸ hi
    have hj' : j < (get_corners oracle).length := holen ▸ hj
    have hgetD : cubes.getD i [] = cubes[i] := List.getD_eq_getElem cubes [] hi'
    have hogetD : (get_corners oracle).getD j [] = (get_corners oracle)[j] :=
      List.getD_eq_getElem _ [] hj'
    have hcell : (generate_chessboard cubes oracle).getD i ([], []) =
        (cubes[i], chessboard_row (get_corners oracle) cubes[i]) := by
      rw [hboard, List.getD_eq_getElem _ _ (by simpa using hi')]
      simp
    have hrowj : (chessboard_row (get_corners oracle) cubes[i]).getD j ([], false) =
        ((get_corners oracle)[j], has_a_matching_corner (get_corners oracle)[j] cubes[i]) := by
      rw [chessboard_row_eq_map _ _ hond, List.getD_eq_getElem _ _ (by simpa using hj')]
      simp
    rw [hgetD, hogetD, hcell]
    show ((chessboard_row (get_corners oracle) cubes[i]).getD j ([], false)).2 = true ↔ _
    rw [hrowj]
    show has_a_matching_corner (get_corners oracle)[j] cubes[i] = true ↔ _
    have hmem_i : cubes[i] ∈ generate_cubes := hsub _ (List.getElem_mem hi')
    obtain ⟨-, -, hi3⟩ := generated_cube_facts cubes[i] hmem_i
    have hoj3 : ((get_corners oracle)[j] : Corner).length = 3 :=
      ho3 _ (List.getElem_mem hj')
    unfold has_a_matching_corner
    rw [List.any_eq_true]
    constructor
    · rintro ⟨corner2, hc2, hm⟩
      exact ⟨corner2, hc2, (is_corner_matching_iff_rotate _ _ hoj3 (hi3 _ hc2)).mp hm⟩
    · rintro ⟨corner2, hc2, hrot⟩
      exact ⟨corner2, hc2, (is_corner_matching_iff_rotate _ _ hoj3 (hi3 _ hc2)).mpr hrot⟩

/-- Witness for C5: the first 8 generated cubes with the first generated cube
as oracle. -/
theorem generate_chessboard_shape_and_cells_witness :
    (generate_chessboard (cubeList30.take 8)
      [Color.Y, Color.B, Color.G, Color.P, Color.R, Color.W]).length = 8 ∧
    (∀ row ∈ generate_chessboard (cubeList30.take 8)
      [Color.Y, Color.B, Color.G, Color.P, Color.R, Color.W], row.2.length = 8) ∧
    (∀ i, i < 8 → ∀ j, j < 8 →
      ((((generate_chessboard (cubeList30.take 8)
            [Color.Y, Color.B, Color.G, Color.P, Color.R, Color.W]).getD i
            ([], [])).2.getD j ([], false)).2 = true ↔
        ∃ corner ∈ get_corners ((cubeList30.take 8).getD i []),
          ∃ k, k < 3 ∧
            ((get_corners [Color.Y, Color.B, Color.G, Color.P, Color.R, Color.W]).getD j
              []).rotate k = corner)) :=
  generate_chessboard_shape_and_cells (cubeList30.take 8)
    [Color.Y, Color.B, Color.G, Color.P, Color.R, Color.W]
    (by rw [generate_cubes_eq]; decide)
    (by rw [generate_cubes_eq]; decide)
    (by decide) (by decide)

/-- C6: spinning a 6-slot cube keeps slots 0 and 1 (bottom, top), moves the
old slot 3 to the front, sends the old front to the last side slot, and four
spins restore the cube. -/
theorem spin_cube_clockwise_spec (cube : Cube) (h : cube.length = 6) :
    (spin_cube_clockwise cube).take 2 = cube.take 2 ∧
    (spin_cube_clockwise cube).getD 2 Color.B = cube.getD 3 Color.B ∧
    (spin_cube_clockwise cube).getD 5 Color.B = cube.getD 2 Color.B ∧
    spin_cube_clockwise^[4] cube = cube := by
  obtain ⟨a, b, c, d, e, f, rfl⟩ := exists_six cube h
  exact ⟨rfl, rfl, rfl, rfl⟩

/-- Witness for C6 at the first generated cube. -/
theorem spin_cube_clockwise_spec_witness :
    (spin_cube_clockwise [Color.Y, Color.B, Color.G, Color.P, Color.R, Color.W]).take 2 =
      ([Color.Y, Color.B, Color.G, Color.P, Color.R, Color.W] : Cube).take 2 ∧
    (spin_cube_clockwise [Color.Y, Color.B, Color.G, Color.P, Color.R, Color.W]).getD 2 Color.B =
      ([Color.Y, Color.B, Color.G, Color.P, Color.R, Color.W] : Cube).getD 3 Color.B ∧
    (spin_cube_clockwise [Color.Y, Color.B, Color.G, Color.P, Color.R, Color.W]).getD 5 Color.B =
      ([Color.Y, Color.B, Color.G, Color.P, Color.R, Color.W] : Cube).getD 2 Color.B ∧
    spin_cube_clockwise^[4] [Color.Y, Color.B, Color.G, Color.P, Color.R, Color.W] =
      [Color.Y, Color.B, Color.G, Color.P, Color.R, Color.W] :=
  spin_cube_clockwise_spec [Color.Y, Color.B, Color.G, Color.P, Color.R, Color.W] rfl

/-- C7: a 6-slot cube has exactly 8 corners in fixed order: corners 0..3 are
(top, side i, side i+1) and corners 4..7 are (bottom, side i, side i+1),
where the sides are slots 2..5 and the pair index wraps modulo 4 (side 5
pairs with side 2). -/
theorem get_corners_spec (cube : Cube) (h : cube.length = 6) :
    (get_corners cube).length = 8 ∧
    ∀ i, i < 4 →
      (get_corners cube).getD i [] =
        [cube.getD 1 Color.B, (cube.drop 2).getD i Color.B,
          (cube.drop 2).getD ((i + 1) % 4) Color.B] ∧
      (get_corners cube).getD (i + 4) [] =
        [cube.getD 0 Color.B, (cube.drop 2).getD i Color.B,
          (cube.drop 2).getD ((i + 1) % 4) Color.B] := by
  obtain ⟨a, b, c, d, e, f, rfl⟩ := exists_six cube h
  refine ⟨rfl, ?_⟩
  intro i hi
  interval_cases i <;> exact ⟨rfl, rfl⟩

/-- Witness for C7 at the first generated cube and corner pair index 3 (the
wrapping pair). -/
theorem get_corners_spec_witness :
    (get_corners [Color.Y, Color.B, Color.G, Color.P, Color.R, Color.W]).length = 8 ∧
    ∀ i, i < 4 →
      (get_corners [Color.Y, Color.B, Color.G, Color.P, Color.R, Color.W]).getD i [] =
        [([Color.Y, Color.B, Color.G, Color.P, Color.R, Color.W] : Cube).getD 1 Color.B,
          (([Color.Y, Color.B, Color.G, Color.P, Color.R, Color.W] : Cube).drop 2).getD i Color.B,
          (([Color.Y, Color.B, Color.G, Color.P, Color.R, Color.W] : Cube).drop 2).getD
            ((i + 1) % 4) Color.B] ∧
      (get_corners [Color.Y, Color.B, Color.G, Color.P, Color.R, Color.W]).getD (i + 4) [] =
        [([Color.Y, Color.B, Color.G, Color.P, Color.R, Color.W] : Cube).getD 0 Color.B,
          (([Color.Y, Color.B, Color.G, Color.P, Color.R, Color.W] : Cube).drop 2).getD i Color.B,
          (([Color.Y, Color.B, Color.G, Color.P, Color.R, Color.W] : Cube).drop 2).getD
            ((i + 1) % 4) Color.B] :=
  get_corners_spec [Color.Y, Color.B, Color.G, Color.P, Color.R, Color.W] rfl

/-- C8: removal never escapes the catch: when the cube is present one
occurrence is removed (its count drops by one, all other counts are kept) and
the flag is true; when absent the list is returned unchanged with flag
false. -/
theorem safe_remove_cube_from_list_spec (cubes : List Cube) (cube_to_remove : Cube) :
    (cube_to_remove ∈ cubes →
      (safe_remove_cube_from_list cubes cube_to_remove).2 = true ∧
      (safe_remove_cube_from_list cubes cube_to_remove).1.count cube_to_remove + 1 =
        cubes.count cube_to_remove ∧
      ∀ y, y ≠ cube_to_remove →
        (safe_remove_cube_from_list cubes cube_to_remove).1.count y = cubes.count y) ∧
    (cube_to_remove ∉ cubes →
      safe_remove_cube_from_list cubes cube_to_remove = (cubes, false)) := by
  by_cases h : cube_to_remove ∈ cubes
  · have hsome : safe_remove_cube_from_list cubes cube_to_remove =
        (cubes.erase cube_to_remove, true) := by
      unfold safe_remove_cube_from_list list_remove
      rw [if_pos h]
    rw [hsome]
    refine ⟨fun _ => ⟨rfl, ?_, ?_⟩, fun hn => absurd h hn⟩
    · rw [List.count_erase_self]
      have := List.count_pos_iff.mpr h
      omega
    · intro y hy
      exact List.count_erase_of_ne hy cubes
  · have hnone : safe_remove_cube_from_list cubes cube_to_remove = (cubes, false) := by
      unfold safe_remove_cube_from_list list_remove
      rw [if_neg h]
    exact ⟨fun hmem => absurd hmem h, fun _ => hnone⟩

/-- Witness for C8: removing a present cube from a two-element list. -/
theorem safe_remove_cube_from_list_spec_witness :
    (safe_remove_cube_from_list [[Color.Y], [Color.B]] [Color.Y]).2 = true ∧
    (safe_remove_cube_from_list [[Color.Y], [Color.B]] [Color.Y]).1.count [Color.Y] + 1 =
      ([[Color.Y], [Color.B]] : List Cube).count [Color.Y] ∧
    ∀ y, y ≠ ([Color.Y] : Cube) →
      (safe_remove_cube_from_list [[Color.Y], [Color.B]] [Color.Y]).1.count y =
        ([[Color.Y], [Color.B]] : List Cube).count y :=
  (safe_remove_cube_from_list_spec [[Color.Y], [Color.B]] [Color.Y]).1 (by decide)

/-- C9: the oracle list is strictly increasing (so the caller's first
candidate is the lowest index) and every element is a valid index into the
cube list handed in. -/
theorem get_oracle_cubes_sorted_and_in_range (possible_cubes : List Cube)
    (exclusions : List (List Nat)) (game_cube_numbers : List Nat) :
    (get_oracle_cubes possible_cubes exclusions game_cube_numbers).Pairwise (· < ·) ∧
    ∀ o ∈ get_oracle_cubes possible_cubes exclusions game_cube_numbers,
      o < possible_cubes.length := by
  unfold get_oracle_cubes
  refine ⟨(List.pairwise_lt_range _).filter _, ?_⟩
  intro o ho
  exact List.mem_range.mp (List.mem_filter.mp ho).1

/-- Witness for C9 at the literal cube list and table. -/
theorem get_oracle_cubes_sorted_and_in_range_witness :
    (get_oracle_cubes cubeList30 excTable30 [0, 1, 2]).Pairwise (· < ·) ∧
    ∀ o ∈ get_oracle_cubes cubeList30 excTable30 [0, 1, 2], o < cubeList30.length :=
  get_oracle_cubes_sorted_and_in_range cubeList30 excTable30 [0, 1, 2]

/-- C10: every generated cube starts with the anchor color Y (bottom face)
and uses each of the 6 colors exactly once. -/
theorem generate_cubes_yellow_bottom_each_color_once :
    ∀ c ∈ generate_cubes, c.head? = some Color.Y ∧ ∀ col : Color, c.count col = 1 := by
  rw [generate_cubes_eq]
  decide

/-- Witness for C10 at the first generated cube. -/
theorem generate_cubes_yellow_bottom_each_color_once_witness :
    ([Color.Y, Color.B, Color.G, Color.P, Color.R, Color.W] : Cube).head? = some Color.Y ∧
    ∀ col : Color,
      ([Color.Y, Color.B, Color.G, Color.P, Color.R, Color.W] : Cube).count col = 1 :=
  generate_cubes_yellow_bottom_each_color_once
    [Color.Y, Color.B, Color.G, Color.P, Color.R, Color.W]
    (by rw [generate_cubes_eq]; decide)

end MoshesInsanity
